import Mathlib

/-!
Shallow embedding of `model.py`, the simulation engine of the cell-infection
repository, together with proofs about it.

Conventions of the embedding:
* Python `float` coordinates are embedded as rationals (`ℚ`); the one use of
  `math.sqrt` (in `Point.distance`) is embedded as `Real.sqrt` over `ℝ`, and a
  decidable squared form `Point.distance_lt` is proved equivalent to the
  source comparison `distance < CELL_RADIUS` (`Point.distance_lt_iff`).
* Python `int` values are embedded as `ℤ`.
* Mutation is embedded as explicit state passing: methods that mutate `self`
  return the updated value; `Cell.contact_with`, which may mutate either of
  the two cells, returns the updated pair.
* `Cell.is_immune`, whose source has no `else` branch and therefore returns
  `None` on the non-immune branch, is embedded with result type `Option Bool`
  (`none` standing for Python `None`); `truthy` is Python truthiness.
-/

/-- A model of a 2-d cartesian coordinate Point (class `Point` of `model.py`). -/
structure Point where
  x : ℚ
  y : ℚ
  deriving DecidableEq

/-- An individual subject in the simulation (class `Cell` of `model.py`). The
class attribute default `sickness = constants.VULNERABLE` is supplied
explicitly at every creation site, mirroring `Model.__init__`. -/
structure Cell where
  location : Point
  direction : Point
  sickness : ℤ
  deriving DecidableEq

/-- The state of the simulation (class `Model` of `model.py`): the population
list and the tick counter (class attribute default `time = 0`). -/
structure Model where
  population : List Cell
  time : ℤ
  deriving DecidableEq

/-- Modelled from the spec: the configuration module `exercises.ex09.constants`
imported by `model.py` is not part of the source tree.  Per spec §3/§6 it
provides the world bounds, the contact radius, the recovery period and the
three integer health sentinel values, gathered here as a single injectable
configuration structure. -/
structure Constants where
  MIN_X : ℚ
  MAX_X : ℚ
  MIN_Y : ℚ
  MAX_Y : ℚ
  CELL_RADIUS : ℚ
  RECOVERY_PERIOD : ℤ
  VULNERABLE : ℤ
  INFECTED : ℤ
  IMMUNE : ℤ
  deriving DecidableEq

/-- Modelled from the spec: §3 describes the sickness encoding as three
disjoint semantic bands — a vulnerable sentinel, an infected band `s ≥
INFECTED`, and an immune sentinel, with the variant framing
{Vulnerable, Infected, Immune} equivalent.  Disjointness of the bands is
exactly: the vulnerable and immune sentinels lie strictly below the infected
band and differ from each other. -/
def Constants.SentinelsDisjoint (c : Constants) : Prop :=
  c.VULNERABLE < c.INFECTED ∧ c.IMMUNE < c.INFECTED ∧ c.IMMUNE ≠ c.VULNERABLE

instance (c : Constants) : Decidable c.SentinelsDisjoint := by
  unfold Constants.SentinelsDisjoint
  infer_instance

/-- Modelled from the spec: §4.2 states that `contractDisease()` resets the
infected-duration to "0 effective elapsed ticks" and that recovery happens
"once the elapsed infected-duration counter exceeds RECOVERY_PERIOD", with
the recovery period a (nonnegative) tick count.  Since the source compares
the raw counter `sickness` against `RECOVERY_PERIOD`, this says the infection
sentinel is `0` and `RECOVERY_PERIOD ≥ 0`. -/
def Constants.SpecTiming (c : Constants) : Prop :=
  c.INFECTED = 0 ∧ 0 ≤ c.RECOVERY_PERIOD

instance (c : Constants) : Decidable c.SpecTiming := by
  unfold Constants.SpecTiming
  infer_instance

/-- Modelled from the spec: a concrete constants value consistent with
§3/§4.2 — disjoint sentinel bands, infection sentinel counting 0 elapsed
ticks, nonnegative recovery period, symmetric world bounds and a positive
contact radius. -/
def cDefault : Constants where
  MIN_X := -200
  MAX_X := 200
  MIN_Y := -200
  MAX_Y := 200
  CELL_RADIUS := 15
  RECOVERY_PERIOD := 10
  VULNERABLE := -1
  INFECTED := 0
  IMMUNE := -2

/-- Python truthiness of an optional boolean: `None` is falsy. -/
def truthy : Option Bool → Bool
  | some b => b
  | none => false

namespace Point

/-- Embedding of `Point.add`: componentwise vector addition returning a new Point. -/
def add (self other : Point) : Point :=
  { x := self.x + other.x, y := self.y + other.y }

/-- Embedding of `Point.distance`: `sqrt((other.x - self.x) ** 2 + (other.y - self.y) ** 2)`,
embedded over the reals. -/
noncomputable def distance (self other : Point) : ℝ :=
  Real.sqrt (((other.x : ℝ) - self.x) ^ 2 + ((other.y : ℝ) - self.y) ^ 2)

/-- Decidable form of the comparison `self.distance(other) < r` used by
`Model.check_contacts`; proved equivalent to the source comparison in
`Point.distance_lt_iff`. -/
def distance_lt (self other : Point) (r : ℚ) : Bool :=
  decide (0 < r ∧ (other.x - self.x) ^ 2 + (other.y - self.y) ^ 2 < r ^ 2)

/-- The decidable squared comparison agrees with the source comparison
`distance < r` over the reals. -/
theorem distance_lt_iff (self other : Point) (r : ℚ) :
    distance_lt self other r = true ↔ distance self other < (r : ℝ) := by
  unfold distance_lt distance
  rw [decide_eq_true_iff]
  constructor
  · rintro ⟨hr, hlt⟩
    rw [Real.sqrt_lt' (by exact_mod_cast hr)]
    exact_mod_cast hlt
  · intro h
    have hr : (0 : ℝ) < (r : ℝ) :=
      lt_of_le_of_lt (Real.sqrt_nonneg _) h
    have hr' : (0 : ℚ) < r := by exact_mod_cast hr
    refine ⟨hr', ?_⟩
    rw [Real.sqrt_lt' hr] at h
    exact_mod_cast h

end Point

namespace Cell

/-- Embedding of `Cell.is_vulnerable`: `True` when `sickness == VULNERABLE`. -/
def is_vulnerable (c : Constants) (cell : Cell) : Bool :=
  decide (cell.sickness = c.VULNERABLE)

/-- Embedding of `Cell.is_infected`: `True` when `sickness >= INFECTED`. -/
def is_infected (c : Constants) (cell : Cell) : Bool :=
  decide (c.INFECTED ≤ cell.sickness)

/-- Embedding of `Cell.is_immune`: `True` when `sickness == IMMUNE`; the source has no
`else` branch, so on the other branch the Python function returns `None`,
embedded as `none`. -/
def is_immune (c : Constants) (cell : Cell) : Option Bool :=
  if cell.sickness = c.IMMUNE then some true else none

/-- Embedding of `Cell.contract_disease`: assigns the INFECTED constant to `sickness`. -/
def contract_disease (c : Constants) (cell : Cell) : Cell :=
  { cell with sickness := c.INFECTED }

/-- Embedding of `Cell.immunize`: assigns the IMMUNE constant to `sickness`. -/
def immunize (c : Constants) (cell : Cell) : Cell :=
  { cell with sickness := c.IMMUNE }

/-- Embedding of `Cell.tick`: move by `direction`; if infected, increment `sickness`; then
(unconditionally) immunize when `sickness > RECOVERY_PERIOD`. -/
def tick (c : Constants) (cell : Cell) : Cell :=
  let cell1 : Cell := { cell with location := cell.location.add cell.direction }
  let cell2 : Cell :=
    if cell1.is_infected c then { cell1 with sickness := cell1.sickness + 1 } else cell1
  if c.RECOVERY_PERIOD < cell2.sickness then cell2.immunize c else cell2

/-- Embedding of `Cell.color`: display tag of the health state (`is_immune` is used in
boolean context, hence through truthiness). -/
def color (c : Constants) (cell : Cell) : String :=
  if cell.is_vulnerable c then "gray"
  else if cell.is_infected c then "red"
  else if truthy (cell.is_immune c) then "green"
  else "none"

/-- Embedding of `Cell.contact_with`: if `self` is infected and `other` vulnerable, `other`
contracts the disease; else if `other` is infected and `self` vulnerable,
`self` contracts it.  Returns the updated `(self, other)` pair. -/
def contact_with (c : Constants) (self other : Cell) : Cell × Cell :=
  if self.is_infected c && other.is_vulnerable c then
    (self, other.contract_disease c)
  else if other.is_infected c && self.is_vulnerable c then
    (self.contract_disease c, other)
  else
    (self, other)

/-- Iteration: `n` repeated calls of `Cell.tick`. -/
def tickN (c : Constants) : ℕ → Cell → Cell
  | 0, cell => cell
  | n + 1, cell => tickN c n (tick c cell)

end Cell

namespace Model

/-- The population built by the loop of `Model.__init__`: cell `i` gets the
`i`-th generated location and direction, and its health is seeded by creation
order — the first `infected` cells contract the disease, the next `immune`
cells are immunized, the rest stay vulnerable.  The random draws of
`random_location` / `random_direction` (the latter involving `cos`/`sin` of a
uniformly random angle scaled by `speed`) are abstracted as the oracle
streams `loc` and `dir`, the only external dependency per spec §6. -/
def seedPop (c : Constants) (loc dir : ℕ → Point) (infected immune : ℤ)
    (cells : ℤ) : List Cell :=
  (List.range cells.toNat).map (fun i =>
    let cell : Cell := { location := loc i, direction := dir i, sickness := c.VULNERABLE }
    if (i : ℤ) < infected then cell.contract_disease c
    else if (i : ℤ) < immune + infected then cell.immunize c
    else cell)

/-- Embedding of `Model.__init__`: validation of the seeding counts followed by population
construction; each `raise ValueError` is embedded as `Except.error` with the
source message. -/
def init (c : Constants) (loc dir : ℕ → Point) (cells : ℤ) (speed : ℚ)
    (infected immune : ℤ) : Except String Model :=
  if cells ≤ infected ∨ infected ≤ 0 then
    Except.error "Some number of the Cell objects must begin infected."
  else if cells ≤ immune ∨ immune < 0 then
    Except.error "There is an improper number of immune or infected cells in the call."
  else if cells ≤ immune + infected then
    Except.error "Incorrect number of starting cells."
  else
    Except.ok { population := seedPop c loc dir infected immune cells, time := 0 }

/-- Embedding of `Model.enforce_bounds`: the four sequential `if` statements, each reading
the state left by the previous one. -/
def enforce_bounds (c : Constants) (cell : Cell) : Cell :=
  let cell1 : Cell :=
    if c.MAX_X < cell.location.x then
      { cell with location := { cell.location with x := c.MAX_X },
                  direction := { cell.direction with x := cell.direction.x * (-1) } }
    else cell
  let cell2 : Cell :=
    if cell1.location.x < c.MIN_X then
      { cell1 with location := { cell1.location with x := c.MIN_X },
                   direction := { cell1.direction with x := cell1.direction.x * (-1) } }
    else cell1
  let cell3 : Cell :=
    if c.MAX_Y < cell2.location.y then
      { cell2 with location := { cell2.location with y := c.MAX_Y },
                   direction := { cell2.direction with y := cell2.direction.y * (-1) } }
    else cell2
  if cell3.location.y < c.MIN_Y then
    { cell3 with location := { cell3.location with y := c.MIN_Y },
                 direction := { cell3.direction with y := cell3.direction.y * (-1) } }
  else cell3

/-- One iteration of the inner loop body of `Model.check_contacts`: compare
the current cells at indices `i` and `i2` and, on proximity, replace both by
the result of `contact_with`.  (In the loops that use it, `i < i2 <
pop.length` always holds, so the lookups succeed.) -/
def contact_step (c : Constants) (pop : List Cell) (i i2 : ℕ) : List Cell :=
  match pop[i]?, pop[i2]? with
  | some ci, some ci2 =>
    if Point.distance_lt ci2.location ci.location c.CELL_RADIUS then
      let p := Cell.contact_with c ci ci2
      (pop.set i p.1).set i2 p.2
    else pop
  | _, _ => pop

/-- Embedding of `Model.check_contacts`: the nested `while` loops — for each `i`, for each
`i2` from `i+1` to the end, one `contact_step`.  The list length is invariant
under `contact_step`, so the loop bounds are those of the initial list. -/
def check_contacts (c : Constants) (pop : List Cell) : List Cell :=
  (List.range pop.length).foldl
    (fun acc i =>
      (List.range' (i + 1) (pop.length - (i + 1))).foldl
        (fun acc2 i2 => contact_step c acc2 i i2) acc)
    pop

/-- Embedding of `Model.tick`: increment `time`; move and bounds-enforce each cell in
population order; then run the contact scan. -/
def tick (c : Constants) (m : Model) : Model :=
  { time := m.time + 1,
    population :=
      check_contacts c (m.population.map (fun cell => enforce_bounds c (Cell.tick c cell))) }

/-- Embedding of `Model.is_complete`: the `while` loop returning `False` at the first
infected cell, i.e. `True` iff no cell is infected. -/
def is_complete (c : Constants) (m : Model) : Bool :=
  m.population.all (fun cell => !(cell.is_infected c))

/-- Number of cells of the population reporting `is_infected()`. -/
def infected_count (c : Constants) (m : Model) : ℕ :=
  (m.population.filter (fun cell => cell.is_infected c)).length

/-- Number of cells of the population reporting `is_immune()` truthy. -/
def immune_count (c : Constants) (m : Model) : ℕ :=
  (m.population.filter (fun cell => truthy (cell.is_immune c))).length

/-- Number of cells of the population reporting `is_vulnerable()`. -/
def vulnerable_count (c : Constants) (m : Model) : ℕ :=
  (m.population.filter (fun cell => cell.is_vulnerable c)).length

end Model

/-! ### Generic list helpers -/

/-- Setting an index to the value already stored there leaves the list
unchanged. -/
theorem list_set_getElem {α : Type} : ∀ (l : List α) (i : ℕ) (a : α),
    l[i]? = some a → l.set i a = l
  | [], _, _, h => by simp at h
  | x :: xs, 0, a, h => by
      simp only [List.getElem?_cons_zero, Option.some.injEq] at h
      simp [h]
  | x :: xs, i + 1, a, h => by
      simp only [List.getElem?_cons_succ] at h
      simp [list_set_getElem xs i a h]

/-- Invariance of a predicate along a left fold. -/
theorem foldl_invariant {α β : Type} (P : β → Prop) (f : β → α → β)
    (hstep : ∀ b a, P b → P (f b a)) :
    ∀ (l : List α) (init : β), P init → P (l.foldl f init)
  | [], _, h0 => h0
  | a :: l, init, h0 => foldl_invariant P f hstep l (f init a) (hstep init a h0)

/-! ### Boundary enforcement -/

namespace Model

/-- Closed form of `enforce_bounds` for sensible bounds: each axis is clamped
into its interval independently, with the direction component negated exactly
when that axis was out of bounds, and the health state untouched. -/
theorem enforce_bounds_eq (c : Constants) (cell : Cell)
    (hx : c.MIN_X ≤ c.MAX_X) (hy : c.MIN_Y ≤ c.MAX_Y) :
    enforce_bounds c cell =
      { location :=
          { x := if c.MAX_X < cell.location.x then c.MAX_X
                 else if cell.location.x < c.MIN_X then c.MIN_X
                 else cell.location.x,
            y := if c.MAX_Y < cell.location.y then c.MAX_Y
                 else if cell.location.y < c.MIN_Y then c.MIN_Y
                 else cell.location.y },
        direction :=
          { x := if c.MAX_X < cell.location.x ∨ cell.location.x < c.MIN_X
                 then -cell.direction.x else cell.direction.x,
            y := if c.MAX_Y < cell.location.y ∨ cell.location.y < c.MIN_Y
                 then -cell.direction.y else cell.direction.y },
        sickness := cell.sickness } := by
  obtain ⟨⟨lx, ly⟩, ⟨dx, dy⟩, s⟩ := cell
  simp only [enforce_bounds]
  split_ifs <;>
    simp_all [Cell.mk.injEq, Point.mk.injEq, mul_neg_one] <;>
    first
      | rfl
      | linarith
      | (rcases ‹_ ∨ _› with h | h <;> linarith)

end Model

/-- The kinematic part of a cell: location and direction. -/
def locdir (cell : Cell) : Point × Point :=
  (cell.location, cell.direction)

namespace Cell

/-- The method `contact_with` only ever touches the health state: both returned cells
keep their location and direction. -/
theorem contact_with_locdir (c : Constants) (self other : Cell) :
    locdir (contact_with c self other).1 = locdir self ∧
    locdir (contact_with c self other).2 = locdir other := by
  unfold contact_with contract_disease
  split_ifs <;> simp [locdir]

end Cell

namespace Model

/-- One contact step leaves every cell's location and direction unchanged. -/
theorem contact_step_map_locdir (c : Constants) (pop : List Cell) (i i2 : ℕ) :
    (contact_step c pop i i2).map locdir = pop.map locdir := by
  unfold contact_step
  cases hpi : pop[i]? with
  | none => rfl
  | some ci =>
    cases hpi2 : pop[i2]? with
    | none => rfl
    | some ci2 =>
      simp only
      split_ifs with hd
      · have h1 : (pop.map locdir)[i]? = some (locdir ci) := by
          simp [List.getElem?_map, hpi]
        have h2 : (pop.map locdir)[i2]? = some (locdir ci2) := by
          simp [List.getElem?_map, hpi2]
        rw [List.map_set, List.map_set,
          (Cell.contact_with_locdir c ci ci2).1,
          (Cell.contact_with_locdir c ci ci2).2,
          list_set_getElem _ _ _ h1, list_set_getElem _ _ _ h2]
      · rfl

/-- The whole contact scan leaves every cell's location and direction
unchanged. -/
theorem check_contacts_map_locdir (c : Constants) (pop : List Cell) :
    (check_contacts c pop).map locdir = pop.map locdir := by
  unfold check_contacts
  refine foldl_invariant (fun l : List Cell => l.map locdir = pop.map locdir) _ ?_ _ _ rfl
  intro b i hb
  refine foldl_invariant (fun l : List Cell => l.map locdir = pop.map locdir) _ ?_ _ _ hb
  intro b2 i2 hb2
  rw [contact_step_map_locdir, hb2]

/-- The contact scan preserves the population size. -/
theorem check_contacts_length (c : Constants) (pop : List Cell) :
    (check_contacts c pop).length = pop.length := by
  have h := congrArg List.length (check_contacts_map_locdir c pop)
  simpa using h

/-- Every cell of the contact scan's output shares its location and direction
with a cell of the input. -/
theorem check_contacts_mem_locdir (c : Constants) (pop : List Cell) :
    ∀ cell ∈ check_contacts c pop, ∃ cell0 ∈ pop, locdir cell = locdir cell0 := by
  intro cell hcell
  have hmem : locdir cell ∈ (check_contacts c pop).map locdir :=
    List.mem_map_of_mem locdir hcell
  rw [check_contacts_map_locdir] at hmem
  obtain ⟨cell0, hcell0, heq⟩ := List.mem_map.mp hmem
  exact ⟨cell0, hcell0, heq.symm⟩

/-- After `enforce_bounds`, both coordinates lie inside the world bounds
whenever the bounds are sensible. -/
theorem enforce_bounds_in_bounds (c : Constants) (cell : Cell)
    (hx : c.MIN_X ≤ c.MAX_X) (hy : c.MIN_Y ≤ c.MAX_Y) :
    c.MIN_X ≤ (enforce_bounds c cell).location.x ∧
    (enforce_bounds c cell).location.x ≤ c.MAX_X ∧
    c.MIN_Y ≤ (enforce_bounds c cell).location.y ∧
    (enforce_bounds c cell).location.y ≤ c.MAX_Y := by
  rw [enforce_bounds_eq c cell hx hy]
  refine ⟨?_, ?_, ?_, ?_⟩ <;> dsimp only <;> split_ifs <;> linarith

end Model

/-! ### Counting over ranges -/

theorem countP_range_lt (a n : ℕ) :
    (List.range n).countP (fun i => decide (i < a)) = min a n := by
  induction n with
  | zero => simp
  | succ n ih =>
      rw [List.range_succ, List.countP_append, ih]
      simp only [List.countP_cons, List.countP_nil, decide_eq_true_eq, Nat.zero_add]
      split_ifs <;> omega

theorem countP_range_band (a b n : ℕ) :
    (List.range n).countP (fun i => decide (a ≤ i ∧ i < b)) = min b n - min a n := by
  induction n with
  | zero => simp
  | succ n ih =>
      rw [List.range_succ, List.countP_append, ih]
      simp only [List.countP_cons, List.countP_nil, decide_eq_true_eq, Nat.zero_add]
      split_ifs <;> omega

theorem countP_range_ge (a n : ℕ) :
    (List.range n).countP (fun i => decide (a ≤ i)) = n - min a n := by
  induction n with
  | zero => simp
  | succ n ih =>
      rw [List.range_succ, List.countP_append, ih]
      simp only [List.countP_cons, List.countP_nil, decide_eq_true_eq, Nat.zero_add]
      split_ifs <;> omega

/-! ### Construction -/

namespace Model

theorem seedPop_length (c : Constants) (loc dir : ℕ → Point)
    (infected immune cells : ℤ) :
    (seedPop c loc dir infected immune cells).length = cells.toNat := by
  simp [seedPop]

/-- The sickness seeded into cell `i` by creation order. -/
theorem seedPop_get (c : Constants) (loc dir : ℕ → Point)
    (infected immune cells : ℤ) (i : ℕ)
    (hi : i < (seedPop c loc dir infected immune cells).length) :
    ((seedPop c loc dir infected immune cells).get ⟨i, hi⟩).sickness =
      if (i : ℤ) < infected then c.INFECTED
      else if (i : ℤ) < immune + infected then c.IMMUNE
      else c.VULNERABLE := by
  simp only [seedPop, List.get_eq_getElem, List.getElem_map, List.getElem_range]
  split_ifs <;> rfl

/-- Inversion: `Model.__init__` succeeds exactly when all three validations pass, and
then yields the seeded population at time 0. -/
theorem init_ok_iff (c : Constants) (loc dir : ℕ → Point) (cells : ℤ)
    (speed : ℚ) (infected immune : ℤ) (m : Model) :
    init c loc dir cells speed infected immune = Except.ok m ↔
      ((0 < infected ∧ infected < cells ∧ 0 ≤ immune ∧ immune < cells ∧
          immune + infected < cells) ∧
        m = { population := seedPop c loc dir infected immune cells, time := 0 }) := by
  unfold init
  split_ifs with h1 h2 h3
  · simp only [reduceCtorEq, false_iff]
    rintro ⟨⟨hv1, hv2, hv3, hv4, hv5⟩, -⟩
    omega
  · simp only [reduceCtorEq, false_iff]
    rintro ⟨⟨hv1, hv2, hv3, hv4, hv5⟩, -⟩
    omega
  · simp only [reduceCtorEq, false_iff]
    rintro ⟨⟨hv1, hv2, hv3, hv4, hv5⟩, -⟩
    omega
  · simp only [Except.ok.injEq]
    constructor
    · intro h
      exact ⟨by omega, h.symm⟩
    · rintro ⟨-, h⟩
      exact h.symm

end Model

/-- C2: Model construction with arguments (populationSize, speed,
infectedCount, immuneCount) fails with InvalidConfiguration if and only if
infectedCount ≤ 0, or infectedCount ≥ populationSize, or immuneCount < 0, or
immuneCount ≥ populationSize, or infectedCount + immuneCount ≥
populationSize; for all arguments satisfying none of these conditions,
construction succeeds. -/
theorem init_invalid_configuration_iff (c : Constants) (loc dir : ℕ → Point)
    (cells : ℤ) (speed : ℚ) (infected immune : ℤ) :
    ((∃ msg, Model.init c loc dir cells speed infected immune = Except.error msg) ↔
      (infected ≤ 0 ∨ cells ≤ infected ∨ immune < 0 ∨ cells ≤ immune ∨
        cells ≤ infected + immune)) ∧
    (¬(infected ≤ 0 ∨ cells ≤ infected ∨ immune < 0 ∨ cells ≤ immune ∨
        cells ≤ infected + immune) →
      ∃ m, Model.init c loc dir cells speed infected immune = Except.ok m) := by
  constructor
  · unfold Model.init
    split_ifs with h1 h2 h3 <;> simp <;> omega
  · intro h
    unfold Model.init
    split_ifs with h1 h2 h3 <;> simp <;> omega

namespace Cell

/-- Truthiness of `is_immune` coincides with the equality test on the
sickness counter. -/
theorem truthy_is_immune (c : Constants) (cell : Cell) :
    truthy (is_immune c cell) = decide (cell.sickness = c.IMMUNE) := by
  unfold is_immune truthy
  split_ifs with h <;> simp [h]

end Cell

namespace Model

theorem seedPop_countP_infected (c : Constants) (hd : c.SentinelsDisjoint)
    (loc dir : ℕ → Point) (infected immune cells : ℤ) (hinf : 0 ≤ infected) :
    (seedPop c loc dir infected immune cells).countP
        (fun cell => cell.is_infected c) =
      min infected.toNat cells.toNat := by
  obtain ⟨hdV, hdI, hdVI⟩ := hd
  unfold seedPop
  rw [List.countP_map]
  refine Eq.trans (List.countP_congr ?_) (countP_range_lt infected.toNat cells.toNat)
  intro i hi
  simp only [Function.comp_apply]
  split_ifs with h1 h2 <;>
    simp [Cell.is_infected, Cell.contract_disease, Cell.immunize,
      decide_eq_true_eq] <;>
    omega

theorem seedPop_countP_immune (c : Constants) (hd : c.SentinelsDisjoint)
    (loc dir : ℕ → Point) (infected immune cells : ℤ)
    (hinf : 0 ≤ infected) (himm : 0 ≤ immune) :
    (seedPop c loc dir infected immune cells).countP
        (fun cell => truthy (cell.is_immune c)) =
      min (immune + infected).toNat cells.toNat - min infected.toNat cells.toNat := by
  obtain ⟨hdV, hdI, hdVI⟩ := hd
  unfold seedPop
  rw [List.countP_map]
  refine Eq.trans (List.countP_congr ?_)
    (countP_range_band infected.toNat (immune + infected).toNat cells.toNat)
  intro i hi
  simp only [Function.comp_apply, Cell.truthy_is_immune]
  split_ifs with h1 h2 <;>
    simp [Cell.contract_disease, Cell.immunize, decide_eq_true_eq] <;>
    omega

theorem seedPop_countP_vulnerable (c : Constants) (hd : c.SentinelsDisjoint)
    (loc dir : ℕ → Point) (infected immune cells : ℤ)
    (hinf : 0 ≤ infected) (himm : 0 ≤ immune) :
    (seedPop c loc dir infected immune cells).countP
        (fun cell => cell.is_vulnerable c) =
      cells.toNat - min (immune + infected).toNat cells.toNat := by
  obtain ⟨hdV, hdI, hdVI⟩ := hd
  unfold seedPop
  rw [List.countP_map]
  refine Eq.trans (List.countP_congr ?_)
    (countP_range_ge (immune + infected).toNat cells.toNat)
  intro i hi
  simp only [Function.comp_apply]
  split_ifs with h1 h2 <;>
    simp [Cell.is_vulnerable, Cell.contract_disease, Cell.immunize,
      decide_eq_true_eq] <;>
    omega

end Model

/-- Seeding facts shared by the construction-time theorems: sizes, per-index
health by creation order, and the three exact counts. -/
theorem init_seeding_aux (c : Constants) (hd : c.SentinelsDisjoint)
    (loc dir : ℕ → Point) (cells : ℤ) (speed : ℚ) (infected immune : ℤ)
    (m : Model)
    (hok : Model.init c loc dir cells speed infected immune = Except.ok m) :
    m.population.length = cells.toNat ∧
    (∀ i : ℕ, ∀ hi : i < m.population.length,
      ((i : ℤ) < infected → (m.population.get ⟨i, hi⟩).is_infected c = true) ∧
      (infected ≤ (i : ℤ) ∧ (i : ℤ) < infected + immune →
        (m.population.get ⟨i, hi⟩).is_immune c = some true) ∧
      (infected + immune ≤ (i : ℤ) →
        (m.population.get ⟨i, hi⟩).is_vulnerable c = true)) ∧
    Model.infected_count c m = infected.toNat ∧
    Model.immune_count c m = immune.toNat ∧
    Model.vulnerable_count c m = (cells - infected - immune).toNat := by
  obtain ⟨⟨hv1, hv2, hv3, hv4, hv5⟩, hm⟩ :=
    (Model.init_ok_iff c loc dir cells speed infected immune m).mp hok
  subst hm
  have hdc := hd
  obtain ⟨hdV, hdI, hdVI⟩ := hdc
  refine ⟨Model.seedPop_length c loc dir infected immune cells, ?_, ?_, ?_, ?_⟩
  · intro i hi
    have hs := Model.seedPop_get c loc dir infected immune cells i hi
    refine ⟨?_, ?_, ?_⟩
    · intro h
      simp only [Cell.is_infected, hs, decide_eq_true_eq]
      split_ifs <;> omega
    · intro h
      simp only [Cell.is_immune, hs]
      split_ifs <;> first | rfl | omega
    · intro h
      simp only [Cell.is_vulnerable, hs, decide_eq_true_eq]
      split_ifs <;> omega
  · have hcnt := Model.seedPop_countP_infected c hd loc dir infected immune cells
      (by omega)
    simp only [Model.infected_count, ← List.countP_eq_length_filter]
    rw [hcnt]
    omega
  · have hcnt := Model.seedPop_countP_immune c hd loc dir infected immune cells
      (by omega) (by omega)
    simp only [Model.immune_count, ← List.countP_eq_length_filter]
    rw [hcnt]
    omega
  · have hcnt := Model.seedPop_countP_vulnerable c hd loc dir infected immune cells
      (by omega) (by omega)
    simp only [Model.vulnerable_count, ← List.countP_eq_length_filter]
    rw [hcnt]
    omega

/-- C9: Immediately after every successful construction of
Model(populationSize, speed, infectedCount, immuneCount), the population has
exactly populationSize cells, the first infectedCount cells in creation
order report isInfected()==true, the next immuneCount cells report
isImmune()==true, and all remaining populationSize - infectedCount -
immuneCount cells report isVulnerable()==true, so the three counts are
exact. -/
theorem init_seeding_exact (c : Constants) (hd : c.SentinelsDisjoint)
    (loc dir : ℕ → Point) (cells : ℤ) (speed : ℚ) (infected immune : ℤ)
    (m : Model)
    (hok : Model.init c loc dir cells speed infected immune = Except.ok m) :
    m.population.length = cells.toNat ∧
    (∀ i : ℕ, ∀ hi : i < m.population.length,
      ((i : ℤ) < infected → (m.population.get ⟨i, hi⟩).is_infected c = true) ∧
      (infected ≤ (i : ℤ) ∧ (i : ℤ) < infected + immune →
        (m.population.get ⟨i, hi⟩).is_immune c = some true) ∧
      (infected + immune ≤ (i : ℤ) →
        (m.population.get ⟨i, hi⟩).is_vulnerable c = true)) ∧
    Model.infected_count c m = infected.toNat ∧
    Model.immune_count c m = immune.toNat ∧
    Model.vulnerable_count c m = (cells - infected - immune).toNat :=
  init_seeding_aux c hd loc dir cells speed infected immune m hok

/-- Constant oracle placing every cell at the origin with a zero direction. -/
def constPt0 : ℕ → Point :=
  fun _ => { x := 0, y := 0 }

/-- The model produced by `Model.init cDefault constPt0 constPt0 10 1 3 2`:
three infected cells, then two immune, then five vulnerable. -/
def mTen : Model where
  population :=
    [{ location := { x := 0, y := 0 }, direction := { x := 0, y := 0 }, sickness := 0 },
     { location := { x := 0, y := 0 }, direction := { x := 0, y := 0 }, sickness := 0 },
     { location := { x := 0, y := 0 }, direction := { x := 0, y := 0 }, sickness := 0 },
     { location := { x := 0, y := 0 }, direction := { x := 0, y := 0 }, sickness := -2 },
     { location := { x := 0, y := 0 }, direction := { x := 0, y := 0 }, sickness := -2 },
     { location := { x := 0, y := 0 }, direction := { x := 0, y := 0 }, sickness := -1 },
     { location := { x := 0, y := 0 }, direction := { x := 0, y := 0 }, sickness := -1 },
     { location := { x := 0, y := 0 }, direction := { x := 0, y := 0 }, sickness := -1 },
     { location := { x := 0, y := 0 }, direction := { x := 0, y := 0 }, sickness := -1 },
     { location := { x := 0, y := 0 }, direction := { x := 0, y := 0 }, sickness := -1 }]
  time := 0

/-- Witness for C9: the spec §8 instance (populationSize=10, speed=1.0,
infectedCount=3, immuneCount=2) yields counts 3 / 2 / 5. -/
theorem init_seeding_exact_witness :
    Model.infected_count cDefault mTen = 3 ∧
    Model.immune_count cDefault mTen = 2 ∧
    Model.vulnerable_count cDefault mTen = 5 := by
  have h := init_seeding_exact cDefault (by decide) constPt0 constPt0 10 1 3 2
    mTen (by rfl)
  exact ⟨h.2.2.1, h.2.2.2.1, h.2.2.2.2⟩

/-- C1 (amended): the count invariants 0 < infectedCount < populationSize and
infectedCount + immuneCount < populationSize hold immediately after every
successful construction; they are construction-time guarantees, not
preserved by tick() (see the counterexample). -/
theorem construction_count_invariants (c : Constants) (hd : c.SentinelsDisjoint)
    (loc dir : ℕ → Point) (cells : ℤ) (speed : ℚ) (infected immune : ℤ)
    (m : Model)
    (hok : Model.init c loc dir cells speed infected immune = Except.ok m) :
    0 < Model.infected_count c m ∧
    Model.infected_count c m < m.population.length ∧
    Model.infected_count c m + Model.immune_count c m < m.population.length := by
  obtain ⟨⟨hv1, hv2, hv3, hv4, hv5⟩, hm⟩ :=
    (Model.init_ok_iff c loc dir cells speed infected immune m).mp hok
  have hc := init_seeding_aux c hd loc dir cells speed infected immune m hok
  obtain ⟨hlen, -, hcinf, hcimm, -⟩ := hc
  rw [hlen, hcinf, hcimm]
  omega

/-- Witness for the amended C1 at the concrete ten-cell construction. -/
theorem construction_count_invariants_witness :
    0 < Model.infected_count cDefault mTen ∧
    Model.infected_count cDefault mTen < mTen.population.length ∧
    Model.infected_count cDefault mTen + Model.immune_count cDefault mTen <
      mTen.population.length :=
  construction_count_invariants cDefault (by decide) constPt0 constPt0 10 1 3 2
    mTen (by rfl)

/-- The model produced by `Model.init cDefault constPt0 constPt0 2 1 1 0`:
one infected cell and one vulnerable cell, both at the origin. -/
def mPair : Model where
  population :=
    [{ location := { x := 0, y := 0 }, direction := { x := 0, y := 0 }, sickness := 0 },
     { location := { x := 0, y := 0 }, direction := { x := 0, y := 0 }, sickness := -1 }]
  time := 0

/-- The state of `mPair` after one `Model.tick`: the contact scan has
infected the vulnerable cell, so both cells are infected. -/
def mPairTicked : Model where
  population :=
    [{ location := { x := 0, y := 0 }, direction := { x := 0, y := 0 }, sickness := 1 },
     { location := { x := 0, y := 0 }, direction := { x := 0, y := 0 }, sickness := 0 }]
  time := 1

theorem tick_mPair : Model.tick cDefault mPair = mPairTicked := by
  norm_num [Model.tick, Cell.tick, Point.add, Model.enforce_bounds,
    Model.check_contacts, Model.contact_step, Cell.contact_with,
    Cell.contract_disease, Cell.is_infected, Cell.is_vulnerable, Cell.immunize,
    Point.distance_lt, cDefault, mPair, mPairTicked, List.range', List.range_succ]

/-- Counterexample to C1 as stated: a successfully constructed two-cell model
whose single tick infects the vulnerable cell through contact, so that
infectedCount = 2 = populationSize, violating infectedCount < populationSize
(and infectedCount + immuneCount < populationSize) in a reachable state. -/
theorem tick_breaks_count_invariant :
    Model.init cDefault constPt0 constPt0 2 1 1 0 = Except.ok mPair ∧
    ¬(Model.infected_count cDefault (Model.tick cDefault mPair) <
        (Model.tick cDefault mPair).population.length ∧
      Model.infected_count cDefault (Model.tick cDefault mPair) +
          Model.immune_count cDefault (Model.tick cDefault mPair) <
        (Model.tick cDefault mPair).population.length) := by
  refine ⟨rfl, ?_⟩
  rw [tick_mPair]
  decide

/-! ### Per-cell health dynamics -/

namespace Cell

theorem tickN_succ (c : Constants) :
    ∀ (n : ℕ) (cell : Cell), tickN c (n + 1) cell = tick c (tickN c n cell)
  | 0, cell => rfl
  | n + 1, cell => tickN_succ c n (tick c cell)

/-- The sickness counter after one `tick`: increment while in the infected
band, then overwrite with the immune sentinel past the recovery threshold. -/
theorem tick_sickness (c : Constants) (cell : Cell) :
    (tick c cell).sickness =
      if c.RECOVERY_PERIOD <
          (if c.INFECTED ≤ cell.sickness then cell.sickness + 1 else cell.sickness)
      then c.IMMUNE
      else (if c.INFECTED ≤ cell.sickness then cell.sickness + 1 else cell.sickness) := by
  unfold tick immunize is_infected
  simp only [apply_ite (fun x : Cell => x.sickness)]
  split_ifs <;> simp_all

/-- The sickness counter of a freshly infected cell after `k` ticks: it counts
the elapsed ticks until the recovery period is exceeded, then holds the
immune sentinel forever. -/
theorem tickN_sickness (c : Constants) (hI : c.INFECTED = 0)
    (hRP : 0 ≤ c.RECOVERY_PERIOD) (hIM : c.IMMUNE < 0) (cell : Cell) :
    ∀ k : ℕ, (tickN c k (contract_disease c cell)).sickness =
      if (k : ℤ) ≤ c.RECOVERY_PERIOD then (k : ℤ) else c.IMMUNE := by
  intro k
  induction k with
  | zero =>
      simp only [tickN, contract_disease, hI, Nat.cast_zero]
      rw [if_pos hRP]
  | succ k ih =>
      rw [tickN_succ, tick_sickness, ih]
      split_ifs <;> omega

end Cell

/-- C3: For every Cell that becomes infected at tick T via contractDisease()
and receives no further contractDisease() or infecting contact afterward,
under repeated tick() calls isInfected() is true at every tick in
[T, T+RECOVERY_PERIOD] and isImmune() is true starting exactly at tick
T + RECOVERY_PERIOD + 1, never earlier. -/
theorem recovery_timing (c : Constants) (hd : c.SentinelsDisjoint)
    (ht : c.SpecTiming) (cell : Cell) (k : ℕ) :
    ((k : ℤ) ≤ c.RECOVERY_PERIOD →
      (Cell.tickN c k (Cell.contract_disease c cell)).is_infected c = true) ∧
    ((Cell.tickN c k (Cell.contract_disease c cell)).is_immune c = some true ↔
      c.RECOVERY_PERIOD + 1 ≤ (k : ℤ)) := by
  obtain ⟨hdV, hdI, hdVI⟩ := hd
  obtain ⟨hI, hRP⟩ := ht
  have hIM : c.IMMUNE < 0 := by omega
  have hs := Cell.tickN_sickness c hI hRP hIM cell k
  constructor
  · intro h
    simp only [Cell.is_infected, hs, decide_eq_true_eq]
    split_ifs <;> omega
  · simp only [Cell.is_immune, hs]
    split_ifs <;> simp <;> omega

/-- A vulnerable cell at the origin (used by concrete witnesses). -/
def cellV : Cell where
  location := { x := 0, y := 0 }
  direction := { x := 0, y := 0 }
  sickness := -1

/-- Witness for C3 at RECOVERY_PERIOD = 10 and k = 11: the cell is immune
exactly from the eleventh tick after infection. -/
theorem recovery_timing_witness :
    (((11 : ℕ) : ℤ) ≤ cDefault.RECOVERY_PERIOD →
      (Cell.tickN cDefault 11 (Cell.contract_disease cDefault cellV)).is_infected cDefault = true) ∧
    ((Cell.tickN cDefault 11 (Cell.contract_disease cDefault cellV)).is_immune cDefault = some true ↔
      cDefault.RECOVERY_PERIOD + 1 ≤ ((11 : ℕ) : ℤ)) :=
  recovery_timing cDefault (by decide) (by decide) cellV 11

/-- C4 (code behaviour at the failing input): `is_vulnerable` and
`is_infected` return a boolean on every state, but `is_immune` has no `else`
branch, so whenever the cell is not in the Immune state it returns Python
`None` (embedded `none`) rather than the boolean `False` the claim and the
source's own `-> bool` annotation promise. -/
theorem is_immune_not_boolean (c : Constants) (cell : Cell)
    (h : cell.sickness ≠ c.IMMUNE) :
    Cell.is_immune c cell = none ∧
    (Cell.is_vulnerable c cell = true ∨ Cell.is_vulnerable c cell = false) ∧
    (Cell.is_infected c cell = true ∨ Cell.is_infected c cell = false) := by
  refine ⟨?_, ?_, ?_⟩
  · unfold Cell.is_immune
    exact if_neg h
  · rcases Bool.eq_false_or_eq_true (Cell.is_vulnerable c cell) with hb | hb
    · exact Or.inl hb
    · exact Or.inr hb
  · rcases Bool.eq_false_or_eq_true (Cell.is_infected c cell) with hb | hb
    · exact Or.inl hb
    · exact Or.inr hb

/-- Witness for C4's failing input: a freshly constructed vulnerable cell is
not immune, and `is_immune` yields `none` on it, not `false`. -/
theorem is_immune_not_boolean_witness :
    Cell.is_immune cDefault cellV = none ∧
    (Cell.is_vulnerable cDefault cellV = true ∨ Cell.is_vulnerable cDefault cellV = false) ∧
    (Cell.is_infected cDefault cellV = true ∨ Cell.is_infected cDefault cellV = false) :=
  is_immune_not_boolean cDefault cellV (by decide)

/-- C5: For every Cell, once isImmune() is true, no subsequent tick() call
and no subsequent contactWith() call (in either argument position) makes
isImmune() false or makes isInfected() or isVulnerable() true: the Immune
state is terminal under all operations the Model invokes. -/
theorem immune_terminal (c : Constants) (hd : c.SentinelsDisjoint)
    (cell other : Cell) (him : cell.is_immune c = some true) :
    (Cell.tick c cell).is_immune c = some true ∧
    (Cell.tick c cell).is_infected c = false ∧
    (Cell.tick c cell).is_vulnerable c = false ∧
    (Cell.contact_with c cell other).1.is_immune c = some true ∧
    (Cell.contact_with c cell other).1.is_infected c = false ∧
    (Cell.contact_with c cell other).1.is_vulnerable c = false ∧
    (Cell.contact_with c other cell).2.is_immune c = some true ∧
    (Cell.contact_with c other cell).2.is_infected c = false ∧
    (Cell.contact_with c other cell).2.is_vulnerable c = false := by
  obtain ⟨hdV, hdI, hdVI⟩ := hd
  have hs : cell.sickness = c.IMMUNE := by
    by_contra h
    rw [Cell.is_immune, if_neg h] at him
    exact Option.noConfusion him
  have hinf : cell.is_infected c = false := by
    simp only [Cell.is_infected, decide_eq_false_iff_not]
    omega
  have hvul : cell.is_vulnerable c = false := by
    simp only [Cell.is_vulnerable, decide_eq_false_iff_not]
    omega
  have hst : (Cell.tick c cell).sickness = c.IMMUNE := by
    rw [Cell.tick_sickness, hs]
    split_ifs <;> omega
  have hcw1 : Cell.contact_with c cell other = (cell, other) := by
    unfold Cell.contact_with
    rw [hinf, hvul]
    simp
  have hcw2 : Cell.contact_with c other cell = (other, cell) := by
    unfold Cell.contact_with
    rw [hinf, hvul]
    simp
  refine ⟨?_, ?_, ?_, ?_, ?_, ?_, ?_, ?_, ?_⟩
  · rw [Cell.is_immune, if_pos hst]
  · simp only [Cell.is_infected, hst, decide_eq_false_iff_not]
    omega
  · simp only [Cell.is_vulnerable, hst, decide_eq_false_iff_not]
    omega
  · rw [hcw1]
    exact him
  · rw [hcw1]
    exact hinf
  · rw [hcw1]
    exact hvul
  · rw [hcw2]
    exact him
  · rw [hcw2]
    exact hinf
  · rw [hcw2]
    exact hvul

/-- An immune cell at the origin (used by concrete witnesses). -/
def cellIm : Cell where
  location := { x := 0, y := 0 }
  direction := { x := 0, y := 0 }
  sickness := -2

/-- Witness for C5 at a concrete immune cell against a vulnerable partner. -/
theorem immune_terminal_witness :
    (Cell.tick cDefault cellIm).is_immune cDefault = some true ∧
    (Cell.tick cDefault cellIm).is_infected cDefault = false ∧
    (Cell.tick cDefault cellIm).is_vulnerable cDefault = false ∧
    (Cell.contact_with cDefault cellIm cellV).1.is_immune cDefault = some true ∧
    (Cell.contact_with cDefault cellIm cellV).1.is_infected cDefault = false ∧
    (Cell.contact_with cDefault cellIm cellV).1.is_vulnerable cDefault = false ∧
    (Cell.contact_with cDefault cellV cellIm).2.is_immune cDefault = some true ∧
    (Cell.contact_with cDefault cellV cellIm).2.is_infected cDefault = false ∧
    (Cell.contact_with cDefault cellV cellIm).2.is_vulnerable cDefault = false :=
  immune_terminal cDefault (by decide) cellIm cellV (by decide)

/-- C7: For every cell, enforceBounds acts independently per axis: a
coordinate above that axis's maximum is set to the maximum with that axis's
direction component negated; one below the minimum is set to the minimum
with that component negated; both axes are checked unconditionally in one
call, and an in-bounds coordinate and its direction component are left
unchanged (the health state is untouched). -/
theorem enforce_bounds_per_axis (c : Constants) (cell : Cell)
    (hx : c.MIN_X ≤ c.MAX_X) (hy : c.MIN_Y ≤ c.MAX_Y) :
    (Model.enforce_bounds c cell).location.x =
      (if c.MAX_X < cell.location.x then c.MAX_X
       else if cell.location.x < c.MIN_X then c.MIN_X
       else cell.location.x) ∧
    (Model.enforce_bounds c cell).location.y =
      (if c.MAX_Y < cell.location.y then c.MAX_Y
       else if cell.location.y < c.MIN_Y then c.MIN_Y
       else cell.location.y) ∧
    (Model.enforce_bounds c cell).direction.x =
      (if c.MAX_X < cell.location.x ∨ cell.location.x < c.MIN_X
       then -cell.direction.x else cell.direction.x) ∧
    (Model.enforce_bounds c cell).direction.y =
      (if c.MAX_Y < cell.location.y ∨ cell.location.y < c.MIN_Y
       then -cell.direction.y else cell.direction.y) ∧
    (Model.enforce_bounds c cell).sickness = cell.sickness := by
  rw [Model.enforce_bounds_eq c cell hx hy]
  exact ⟨rfl, rfl, rfl, rfl, rfl⟩

/-- A cell past the +x bound and below the -y bound, moving further out. -/
def cellC7 : Cell where
  location := { x := 250, y := -300 }
  direction := { x := 5, y := -7 }
  sickness := -1

/-- Witness for C7: at (250, -300) with direction (5, -7) the cell is clamped
to (200, -200) and both direction components are negated. -/
theorem enforce_bounds_per_axis_witness :
    (Model.enforce_bounds cDefault cellC7).location.x = 200 ∧
    (Model.enforce_bounds cDefault cellC7).location.y = -200 ∧
    (Model.enforce_bounds cDefault cellC7).direction.x = -5 ∧
    (Model.enforce_bounds cDefault cellC7).direction.y = 7 ∧
    (Model.enforce_bounds cDefault cellC7).sickness = cellC7.sickness := by
  obtain ⟨h1, h2, h3, h4, h5⟩ :=
    enforce_bounds_per_axis cDefault cellC7 (by norm_num [cDefault])
      (by norm_num [cDefault])
  refine ⟨?_, ?_, ?_, ?_, h5⟩
  · rw [h1]
    norm_num [cellC7, cDefault]
  · rw [h2]
    norm_num [cellC7, cDefault]
  · rw [h3]
    norm_num [cellC7, cDefault]
  · rw [h4]
    norm_num [cellC7, cDefault]

/-- C8: For every pair of cells where one is Infected and the other is
Vulnerable, contactWith infects the vulnerable one (setting its counter to
the infection sentinel) regardless of argument order; when neither
(infected, vulnerable) direction holds, both cells are unchanged; and in
every call at most one of the two cells changes state. -/
theorem contact_with_spec (c : Constants) (hV : c.VULNERABLE < c.INFECTED)
    (self other : Cell) :
    (self.is_infected c = true → other.is_vulnerable c = true →
      Cell.contact_with c self other = (self, other.contract_disease c)) ∧
    (other.is_infected c = true → self.is_vulnerable c = true →
      Cell.contact_with c self other = (self.contract_disease c, other)) ∧
    (¬(self.is_infected c = true ∧ other.is_vulnerable c = true) →
      ¬(other.is_infected c = true ∧ self.is_vulnerable c = true) →
      Cell.contact_with c self other = (self, other)) ∧
    ((Cell.contact_with c self other).1 = self ∨
      (Cell.contact_with c self other).2 = other) := by
  refine ⟨?_, ?_, ?_, ?_⟩
  · intro h1 h2
    unfold Cell.contact_with
    rw [h1, h2]
    simp
  · intro h1 h2
    have hsi : self.is_infected c = false := by
      simp only [Cell.is_vulnerable, decide_eq_true_eq] at h2
      simp only [Cell.is_infected, decide_eq_false_iff_not]
      omega
    unfold Cell.contact_with
    rw [h1, h2, hsi]
    simp
  · intro hn1 hn2
    unfold Cell.contact_with
    split_ifs with hA hB
    · rw [Bool.and_eq_true] at hA
      exact absurd hA hn1
    · rw [Bool.and_eq_true] at hB
      exact absurd hB hn2
    · rfl
  · unfold Cell.contact_with
    split_ifs <;> simp

/-- An infected cell at the origin (used by concrete witnesses). -/
def cellInf : Cell where
  location := { x := 0, y := 0 }
  direction := { x := 0, y := 0 }
  sickness := 0

/-- Witness for C8 at a concrete (infected, vulnerable) pair. -/
theorem contact_with_spec_witness :
    (cellInf.is_infected cDefault = true → cellV.is_vulnerable cDefault = true →
      Cell.contact_with cDefault cellInf cellV =
        (cellInf, cellV.contract_disease cDefault)) ∧
    (cellV.is_infected cDefault = true → cellInf.is_vulnerable cDefault = true →
      Cell.contact_with cDefault cellInf cellV =
        (cellInf.contract_disease cDefault, cellV)) ∧
    (¬(cellInf.is_infected cDefault = true ∧ cellV.is_vulnerable cDefault = true) →
      ¬(cellV.is_infected cDefault = true ∧ cellInf.is_vulnerable cDefault = true) →
      Cell.contact_with cDefault cellInf cellV = (cellInf, cellV)) ∧
    ((Cell.contact_with cDefault cellInf cellV).1 = cellInf ∨
      (Cell.contact_with cDefault cellInf cellV).2 = cellV) :=
  contact_with_spec cDefault (by decide) cellInf cellV

/-- C10: Assuming MIN_X ≤ MAX_X and MIN_Y ≤ MAX_Y, after every Model.tick()
call every cell's location satisfies MIN_X ≤ x ≤ MAX_X and MIN_Y ≤ y ≤
MAX_Y, regardless of how large the per-tick displacement is: enforceBounds
always returns the position to the bounds even when a single move overshoots
them, and the contact scan never moves a cell. -/
theorem tick_in_bounds (c : Constants) (m : Model)
    (hx : c.MIN_X ≤ c.MAX_X) (hy : c.MIN_Y ≤ c.MAX_Y) :
    ∀ cell ∈ (Model.tick c m).population,
      c.MIN_X ≤ cell.location.x ∧ cell.location.x ≤ c.MAX_X ∧
      c.MIN_Y ≤ cell.location.y ∧ cell.location.y ≤ c.MAX_Y := by
  intro cell hcell
  simp only [Model.tick] at hcell
  obtain ⟨cell0, hcell0, heq⟩ :=
    Model.check_contacts_mem_locdir c
      (m.population.map (fun cl => Model.enforce_bounds c (Cell.tick c cl)))
      cell hcell
  obtain ⟨orig, horig, hcell0eq⟩ := List.mem_map.mp hcell0
  have hloc : cell.location = cell0.location := congrArg Prod.fst heq
  rw [hloc, ← hcell0eq]
  exact Model.enforce_bounds_in_bounds c (Cell.tick c orig) hx hy

/-- A cell whose one-tick displacement overshoots the world by far. -/
def mBig : Model where
  population :=
    [{ location := { x := 0, y := 0 },
       direction := { x := 1000000, y := -1000000 }, sickness := -1 }]
  time := 0

/-- The state of `mBig` after one tick: clamped to the corner (200, -200)
with both direction components negated. -/
def cellBigTicked : Cell where
  location := { x := 200, y := -200 }
  direction := { x := -1000000, y := 1000000 }
  sickness := -1

theorem tick_mBig :
    Model.tick cDefault mBig = { population := [cellBigTicked], time := 1 } := by
  norm_num [Model.tick, Cell.tick, Point.add, Model.enforce_bounds,
    Model.check_contacts, Model.contact_step, Cell.contact_with,
    Cell.contract_disease, Cell.is_infected, Cell.is_vulnerable, Cell.immunize,
    Point.distance_lt, cDefault, mBig, cellBigTicked, List.range', List.range_succ]

/-- Witness for C10: the overshooting cell ends the tick inside the world. -/
theorem tick_in_bounds_witness :
    cDefault.MIN_X ≤ cellBigTicked.location.x ∧
    cellBigTicked.location.x ≤ cDefault.MAX_X ∧
    cDefault.MIN_Y ≤ cellBigTicked.location.y ∧
    cellBigTicked.location.y ≤ cDefault.MAX_Y :=
  tick_in_bounds cDefault mBig (by norm_num [cDefault]) (by norm_num [cDefault])
    cellBigTicked (by rw [tick_mBig]; simp)

/-! ### The tick step as the spec words it -/

/-- All ordered index pairs (i, j) with i < j < n, in the scan order of the
nested while loops: for each i ascending, all j from i+1 to n-1. -/
def pairList (n : ℕ) : List (ℕ × ℕ) :=
  (List.range n).flatMap
    (fun i => (List.range' (i + 1) (n - (i + 1))).map (fun i2 => (i, i2)))

open Classical in
/-- One pair of the contact scan as the spec words it: compare the source's
real-valued Euclidean `Point.distance` of the two current cells against
CELL_RADIUS and, on strict proximity, let them interact via `contact_with`. -/
noncomputable def Model.contact_step_spec (c : Constants) (pop : List Cell)
    (ij : ℕ × ℕ) : List Cell :=
  match pop[ij.1]?, pop[ij.2]? with
  | some ci, some ci2 =>
    if Point.distance ci2.location ci.location < (c.CELL_RADIUS : ℝ) then
      let p := Cell.contact_with c ci ci2
      (pop.set ij.1 p.1).set ij.2 p.2
    else pop
  | _, _ => pop

/-- The simulation step as the spec words it (§4.3 `tick()` and
`checkContacts()`): increment `time`; advance every cell with `Cell.tick`
immediately followed by boundary enforcement, in population order; then a
single scan over all ordered pairs (i, j) with i < j that lets cells i and j
interact exactly when the Euclidean distance between their locations is
strictly below CELL_RADIUS. -/
noncomputable def Model.tick_spec (c : Constants) (m : Model) : Model :=
  let moved := m.population.map (fun cell => Model.enforce_bounds c (Cell.tick c cell))
  { time := m.time + 1,
    population := (pairList moved.length).foldl (Model.contact_step_spec c) moved }

/-- Pointwise agreement of the implementation's contact step (decidable
squared comparison) with the spec's (real square-root comparison). -/
theorem contact_step_spec_eq (c : Constants) (pop : List Cell) (i i2 : ℕ) :
    Model.contact_step_spec c pop (i, i2) = Model.contact_step c pop i i2 := by
  unfold Model.contact_step_spec Model.contact_step
  cases hpi : pop[i]? with
  | none => rfl
  | some ci =>
    cases hpi2 : pop[i2]? with
    | none => rfl
    | some ci2 =>
      simp only
      by_cases h : Point.distance_lt ci2.location ci.location c.CELL_RADIUS = true
      · rw [if_pos ((Point.distance_lt_iff ci2.location ci.location c.CELL_RADIUS).mp h),
          h]
        simp
      · rw [if_neg (fun hd => h
          ((Point.distance_lt_iff ci2.location ci.location c.CELL_RADIUS).mpr hd))]
        rw [Bool.not_eq_true] at h
        rw [h]
        simp

/-- Folding over the flattened pair list is the nested fold of the two while
loops. -/
theorem foldl_pairList {β : Type} (g : β → ℕ × ℕ → β) (n : ℕ) (init : β) :
    (pairList n).foldl g init =
      (List.range n).foldl
        (fun acc i =>
          (List.range' (i + 1) (n - (i + 1))).foldl
            (fun acc2 i2 => g acc2 (i, i2)) acc)
        init := by
  unfold pairList
  rw [List.flatMap_def, List.foldl_flatten, List.foldl_map]
  simp only [List.foldl_map]

/-- C6: Model.tick() increments time by exactly 1, then for each cell in
population order advances it with cell.tick() immediately followed by
boundary enforcement on that cell, and only after every cell has moved
performs a single contact scan that, for every ordered index pair (i, j)
with i < j, lets cells i and j interact via contactWith exactly when the
Euclidean distance between their locations is strictly less than
CELL_RADIUS: the implementation equals the spec-worded step. -/
theorem tick_refines_spec (c : Constants) (m : Model) :
    Model.tick c m = Model.tick_spec c m := by
  unfold Model.tick Model.tick_spec Model.check_contacts
  simp only [List.length_map]
  rw [foldl_pairList]
  simp only [contact_step_spec_eq]
